import Mathlib

/-!
Verification of the SDR / antenna-switching application (Live_spectogram.py)
against its natural-language specification.  The Python source is embedded
shallowly: frequencies, magnitudes and times are rationals (the Python floats
are modelled exactly as ℚ), numpy vectors are lists, and the stateful
check_jamming / capture_fft callbacks become explicit state-passing functions.
Transcendental quantities that the code obtains from numpy (square roots,
logarithms, powers) are carried as explicitly-constrained parameters.
-/

namespace SDRSwitch

/-! ## Sweep planner (validate_sweep_inputs, lines 1872-1965) -/

/-- Endpoint clamping of `validate_sweep_inputs`: values `≤ 0` become 1 Hz,
values above 4 GHz become 4 GHz. -/
def clampFreq (f : ℚ) : ℚ :=
  if f ≤ 0 then 1 else if 4000000000 < f then 4000000000 else f

/-- `num_steps = int(np.ceil((sweep_end - sweep_start) / step))`. -/
def sweepNumSteps (s e r : ℚ) : ℤ := ⌈(e - s) / r⌉

/-- `center_freqs = [sweep_start + (i + 0.5) * step for i in range(num_steps)]`. -/
def sweepCenterFreqs (s r : ℚ) (n : ℕ) : List ℚ :=
  (List.range n).map (fun i : ℕ => s + ((i : ℚ) + 1 / 2) * r)

/-- `np.linspace(-step/2, step/2, fft_size, endpoint=False)`:
the j-th point is `-step/2 + j * (step / fft_size)`. -/
def binFreqs (r : ℚ) (fft : ℕ) : List ℚ :=
  (List.range fft).map (fun j : ℕ => -r / 2 + (j : ℚ) * (r / (fft : ℚ)))

/-- `freq_axis = np.concatenate([bin_freqs + cf for cf in center_freqs])`. -/
def sweepFreqAxis (s r : ℚ) (n fft : ℕ) : List ℚ :=
  ((sweepCenterFreqs s r n).map (fun cf => (binFreqs r fft).map (fun b => b + cf))).flatten

/-- The sweep plan produced by `validate_sweep_inputs`. -/
structure SweepPlan where
  numSteps : ℕ
  centerFreqs : List ℚ
  freqAxis : List ℚ
deriving Repr, DecidableEq

/-- The planning core of `validate_sweep_inputs`: clamp the endpoints, reject a
degenerate range (`end ≤ start`), a non-positive sample rate, or an empty plan
(each of those paths installs the fallback state and returns False in the
source, modelled as `none`), and otherwise build the step plan. -/
def validate_sweep_inputs (sRaw eRaw r : ℚ) (fft : ℕ) : Option SweepPlan :=
  let s := clampFreq sRaw
  let e := clampFreq eRaw
  if e ≤ s then none
  else if r ≤ 0 then none
  else if sweepNumSteps s e r < 1 then none
  else some ⟨(sweepNumSteps s e r).toNat,
             sweepCenterFreqs s r (sweepNumSteps s e r).toNat,
             sweepFreqAxis s r (sweepNumSteps s e r).toNat fft⟩

theorem getD_map_range (f : ℕ → ℚ) (n i : ℕ) (h : i < n) :
    ((List.range n).map f).getD i 0 = f i := by
  rw [List.getD_eq_getElem?_getD, List.getElem?_map, List.getElem?_range h]
  rfl

/-- Claim C1: for every sweep configuration with `1e6 ≤ start < end ≤ 4e9` and
sample rate `1e5 ≤ rate ≤ 20e6`, the planner produces
`numSteps = ⌈(end-start)/rate⌉ ≥ 1` and a center-frequency list of exactly
`numSteps` entries with `centerFreqs[i] = start + (i+0.5)·rate`; in particular
`start=80e6, end=100e6, rate=20e6` gives one step at 90 MHz, and
`start=80e6, end=120e6, rate=20e6` gives two steps at 90 and 110 MHz. -/
theorem C1_sweep_planner :
    (∀ (s e r : ℚ) (fft : ℕ),
      1000000 ≤ s → s < e → e ≤ 4000000000 → 100000 ≤ r → r ≤ 20000000 →
      ∃ p : SweepPlan, validate_sweep_inputs s e r fft = some p ∧
        (p.numSteps : ℤ) = ⌈(e - s) / r⌉ ∧ 1 ≤ p.numSteps ∧
        p.centerFreqs.length = p.numSteps ∧
        ∀ i : ℕ, i < p.numSteps → p.centerFreqs.getD i 0 = s + ((i : ℚ) + 1 / 2) * r) ∧
    (∃ p : SweepPlan, validate_sweep_inputs 80000000 100000000 20000000 16 = some p ∧
      p.numSteps = 1 ∧ p.centerFreqs = [90000000]) ∧
    (∃ p : SweepPlan, validate_sweep_inputs 80000000 120000000 20000000 16 = some p ∧
      p.numSteps = 2 ∧ p.centerFreqs = [90000000, 110000000]) := by
  have main : ∀ (s e r : ℚ) (fft : ℕ),
      1000000 ≤ s → s < e → e ≤ 4000000000 → 100000 ≤ r → r ≤ 20000000 →
      ∃ p : SweepPlan, validate_sweep_inputs s e r fft = some p ∧
        (p.numSteps : ℤ) = ⌈(e - s) / r⌉ ∧ 1 ≤ p.numSteps ∧
        p.centerFreqs.length = p.numSteps ∧
        ∀ i : ℕ, i < p.numSteps → p.centerFreqs.getD i 0 = s + ((i : ℚ) + 1 / 2) * r := by
    intro s e r fft h1 h2 h3 h4 h5
    have hs : clampFreq s = s := by
      unfold clampFreq
      rw [if_neg (by linarith), if_neg (by linarith)]
    have he : clampFreq e = e := by
      unfold clampFreq
      rw [if_neg (by linarith), if_neg (by linarith)]
    have hne : ¬ (e ≤ s) := not_le.mpr h2
    have hnr : ¬ (r ≤ (0 : ℚ)) := not_le.mpr (by linarith)
    have hn1 : 1 ≤ sweepNumSteps s e r := by
      have : (0 : ℤ) < sweepNumSteps s e r :=
        Int.ceil_pos.mpr (div_pos (by linarith) (by linarith))
      omega
    have hplan : validate_sweep_inputs s e r fft =
        some ⟨(sweepNumSteps s e r).toNat,
              sweepCenterFreqs s r (sweepNumSteps s e r).toNat,
              sweepFreqAxis s r (sweepNumSteps s e r).toNat fft⟩ := by
      unfold validate_sweep_inputs
      simp only [hs, he, if_neg hne, if_neg hnr, if_neg (by omega : ¬ sweepNumSteps s e r < 1)]
    refine ⟨_, hplan, ?_, ?_, ?_, ?_⟩
    · dsimp only
      exact Int.toNat_of_nonneg (by omega)
    · dsimp only
      omega
    · dsimp only [sweepCenterFreqs]
      simp only [List.length_map, List.length_range]
    · intro i hi
      dsimp only at hi
      dsimp only [sweepCenterFreqs]
      exact getD_map_range (fun i : ℕ => s + ((i : ℚ) + 1 / 2) * r) _ i hi
  refine ⟨main, ?_, ?_⟩
  · obtain ⟨p, hp, hn, -, hlen, hget⟩ :=
      main 80000000 100000000 20000000 16 (by norm_num) (by norm_num) (by norm_num)
        (by norm_num) (by norm_num)
    have h1 : p.numSteps = 1 := by
      have hceil : ⌈((100000000 : ℚ) - 80000000) / 20000000⌉ = (1 : ℤ) := by norm_num
      rw [hceil] at hn
      exact_mod_cast hn
    refine ⟨p, hp, h1, ?_⟩
    have hL : p.centerFreqs.length = 1 := by rw [hlen, h1]
    obtain ⟨a, ha⟩ := List.length_eq_one.mp hL
    have h0 := hget 0 (by omega)
    rw [ha] at h0 ⊢
    simp only [List.getD_cons_zero] at h0
    rw [h0]
    norm_num
  · obtain ⟨p, hp, hn, -, hlen, hget⟩ :=
      main 80000000 120000000 20000000 16 (by norm_num) (by norm_num) (by norm_num)
        (by norm_num) (by norm_num)
    have h2 : p.numSteps = 2 := by
      have hceil : ⌈((120000000 : ℚ) - 80000000) / 20000000⌉ = (2 : ℤ) := by norm_num
      rw [hceil] at hn
      exact_mod_cast hn
    refine ⟨p, hp, h2, ?_⟩
    have hL : p.centerFreqs.length = 2 := by rw [hlen, h2]
    obtain ⟨a, b, hab⟩ := List.length_eq_two.mp hL
    have h0 := hget 0 (by omega)
    have h1 := hget 1 (by omega)
    rw [hab] at h0 h1 ⊢
    simp only [List.getD_cons_zero, List.getD_cons_succ] at h0 h1
    rw [h0, h1]
    norm_num

/-- Closed instance of C1 at `start=80e6, end=100e6, rate=20e6`. -/
theorem C1_sweep_planner_witness :
    ∃ p : SweepPlan, validate_sweep_inputs 80000000 100000000 20000000 1024 = some p ∧
      (p.numSteps : ℤ) = ⌈((100000000 : ℚ) - 80000000) / 20000000⌉ ∧ 1 ≤ p.numSteps ∧
      p.centerFreqs.length = p.numSteps ∧
      ∀ i : ℕ, i < p.numSteps →
        p.centerFreqs.getD i 0 = 80000000 + ((i : ℚ) + 1 / 2) * 20000000 :=
  C1_sweep_planner.1 80000000 100000000 20000000 1024 (by norm_num) (by norm_num)
    (by norm_num) (by norm_num) (by norm_num)

/-! ## Frequency-policy range validation (validate_port_ranges, lines 1315-1346) -/

/-- Lexicographic insertion used to model Python `list.sort()` on
`(low, high, port)` tuples; the port tiebreak cannot influence the
validation verdict, so ranges are modelled as `(low, high)` pairs. -/
def insertRange (x : ℚ × ℚ) : List (ℚ × ℚ) → List (ℚ × ℚ)
  | [] => [x]
  | y :: ys =>
    if x.1 < y.1 ∨ (x.1 = y.1 ∧ x.2 ≤ y.2) then x :: y :: ys
    else y :: insertRange x ys

/-- `ranges.sort()` of `validate_port_ranges`. -/
def sortRanges : List (ℚ × ℚ) → List (ℚ × ℚ)
  | [] => []
  | x :: xs => insertRange x (sortRanges xs)

/-- The adjacency scan of `validate_port_ranges`: reject as soon as a sorted
neighbour pair satisfies `current_high >= next_low`. -/
def noOverlapSorted : List (ℚ × ℚ) → Bool
  | [] => true
  | [_] => true
  | a :: b :: rest => decide (a.2 < b.1) && noOverlapSorted (b :: rest)

/-- `validate_port_ranges` on already-parsed `(low, high)` ranges in MHz:
every range must satisfy `low < high` and `high ≤ 4000`, and after sorting no
two ranges may overlap or touch. -/
def validate_port_ranges (rs : List (ℚ × ℚ)) : Bool :=
  rs.all (fun r => decide (r.1 < r.2) && decide (r.2 ≤ 4000)) &&
    noOverlapSorted (sortRanges rs)

theorem noOverlapSorted_false_iff (l : List (ℚ × ℚ)) :
    noOverlapSorted l = false ↔
      ∃ i : ℕ, i + 1 < l.length ∧ (l.getD (i + 1) (0, 0)).1 ≤ (l.getD i (0, 0)).2 := by
  induction l with
  | nil => simp [noOverlapSorted]
  | cons a tail ih =>
    cases tail with
    | nil => simp [noOverlapSorted]
    | cons b rest =>
      constructor
      · intro h
        rw [noOverlapSorted, Bool.and_eq_false_iff] at h
        rcases h with h | h
        · refine ⟨0, by simp, ?_⟩
          simp only [List.getD_cons_succ, List.getD_cons_zero]
          simpa using of_decide_eq_false h
        · obtain ⟨i, hi, hle⟩ := ih.mp h
          exact ⟨i + 1, by simpa using hi, by simpa using hle⟩
      · rintro ⟨i, hi, hle⟩
        rw [noOverlapSorted, Bool.and_eq_false_iff]
        cases i with
        | zero =>
          left
          simp only [List.getD_cons_succ, List.getD_cons_zero] at hle
          exact decide_eq_false (not_lt.mpr hle)
        | succ j =>
          right
          exact ih.mpr ⟨j, by simpa using hi, by simpa using hle⟩

/-- Claim C9: range validation rejects exactly when some range has
`low ≥ high`, or some range has `high > 4000`, or, after sorting by lower
bound, some adjacent pair overlaps or touches (`high[i] ≥ low[i+1]`); in
particular `[0,100],[100,200]` is rejected while `[0,100],[100.1,200]` is
accepted. -/
theorem C9_port_range_validation :
    (∀ rs : List (ℚ × ℚ),
      validate_port_ranges rs = false ↔
        ((∃ r ∈ rs, r.2 ≤ r.1) ∨ (∃ r ∈ rs, 4000 < r.2) ∨
          ∃ i : ℕ, i + 1 < (sortRanges rs).length ∧
            ((sortRanges rs).getD (i + 1) (0, 0)).1 ≤ ((sortRanges rs).getD i (0, 0)).2)) ∧
    validate_port_ranges [(0, 100), (100, 200)] = false ∧
    validate_port_ranges [(0, 100), (1001 / 10, 200)] = true := by
  refine ⟨?_, ?_, ?_⟩
  · intro rs
    rw [validate_port_ranges, Bool.and_eq_false_iff]
    constructor
    · intro h
      rcases h with h | h
      · rcases List.all_eq_false.mp h with ⟨r, hr, hfail⟩
        rw [Bool.not_eq_true, Bool.and_eq_false_iff] at hfail
        rcases hfail with hf | hf
        · exact Or.inl ⟨r, hr, not_lt.mp (of_decide_eq_false hf)⟩
        · exact Or.inr (Or.inl ⟨r, hr, not_le.mp (of_decide_eq_false hf)⟩)
      · exact Or.inr (Or.inr ((noOverlapSorted_false_iff _).mp h))
    · intro h
      rcases h with ⟨r, hr, hle⟩ | ⟨r, hr, hlt⟩ | h
      · exact Or.inl (List.all_eq_false.mpr
          ⟨r, hr, by rw [Bool.not_eq_true, Bool.and_eq_false_iff]
                     exact Or.inl (decide_eq_false (not_lt.mpr hle))⟩)
      · exact Or.inl (List.all_eq_false.mpr
          ⟨r, hr, by rw [Bool.not_eq_true, Bool.and_eq_false_iff]
                     exact Or.inr (decide_eq_false (not_le.mpr hlt))⟩)
      · exact Or.inr ((noOverlapSorted_false_iff _).mpr h)
  · norm_num [validate_port_ranges, sortRanges, insertRange, noOverlapSorted]
  · norm_num [validate_port_ranges, sortRanges, insertRange, noOverlapSorted]

/-! ## Antenna selection (update_antenna, lines 1018-1060) -/

/-- The eight valid OperaCake port names accepted by `update_antenna`. -/
def valid_antennas : List String := ["A1", "A2", "A3", "A4", "B1", "B2", "B3", "B4"]

/-- Strip leading and trailing whitespace from a character list (the
character-level model of Python `str.strip()`). -/
def stripChars (l : List Char) : List Char :=
  ((l.dropWhile Char.isWhitespace).reverse.dropWhile Char.isWhitespace).reverse

/-- Input normalisation of `update_antenna`: `str(val).strip().upper()`,
modelled character-by-character (ASCII uppercasing suffices for port names). -/
def normalizeAntenna (val : String) : String :=
  ⟨(stripChars val.data).map Char.toUpper⟩

/-- `update_antenna` reduced to its observable effects: the resulting
`antenna_select`, whether a hardware `set_antenna` command was attempted, and
the `antenna_changed` event payload (if emitted).  On an invalid name the
selection is left unchanged and only a warning label is shown. -/
def update_antenna (antenna_select : String) (val : String) : String × Bool × Option String :=
  let v := normalizeAntenna val
  if v ∈ valid_antennas then (v, true, some v)
  else (antenna_select, false, none)

/-- Claim C10: every input whose stripped, uppercased form is not one of the
eight port names leaves `antenna_select` unchanged, issues no hardware
antenna command, and emits no antenna-changed event; only valid port names
mutate the selection (and then the selection becomes that normalised name). -/
theorem C10_invalid_antenna_rejected :
    (∀ sel val : String, normalizeAntenna val ∉ valid_antennas →
      update_antenna sel val = (sel, false, none)) ∧
    (∀ sel val : String, update_antenna sel val ≠ (sel, false, none) →
      normalizeAntenna val ∈ valid_antennas ∧
        update_antenna sel val = (normalizeAntenna val, true, some (normalizeAntenna val))) := by
  constructor
  · intro sel val h
    simp [update_antenna, h]
  · intro sel val h
    by_cases hv : normalizeAntenna val ∈ valid_antennas
    · exact ⟨hv, by simp [update_antenna, hv]⟩
    · exact absurd (by simp [update_antenna, hv]) h

/-- Closed instance of C10: the input `" c9 "` normalises to `"C9"`, which is
invalid, so the selection `"A1"` is untouched and nothing is emitted. -/
theorem C10_invalid_antenna_rejected_witness :
    update_antenna "A1" " c9 " = ("A1", false, none) :=
  C10_invalid_antenna_rejected.1 "A1" " c9 " (by decide)

/-! ## Sweep capture: stale-vector guard (capture_fft, lines 1778-1789) -/

/-- `np.allclose(mags, last_fft, rtol=0.0, atol=1e-8)`: elementwise
`|a - b| ≤ atol` on vectors of equal length. -/
def allclose (a b : List ℚ) (atol : ℚ) : Bool :=
  decide (a.length = b.length) && (a.zip b).all (fun p => decide (|p.1 - p.2| ≤ atol))

/-- The capture-loop state touched by the stale-vector guard: the step
pointer `sweep_ptr`, the retry counter `_cap_retries`, and the previously
accepted magnitude vector `last_fft`. -/
structure CaptureState where
  sweep_ptr : ℕ
  cap_retries : ℕ
  last_fft : Option (List ℚ)
deriving Repr, DecidableEq

/-- What `capture_fft` schedules after the stale-vector check: a deferred
retry (`QTimer.singleShot(8, self.capture_fft)`), a silent skip of the step,
or acceptance of the capture.  No branch raises. -/
inductive CaptureOutcome where
  | retryLater (delayMs : ℕ)
  | skipStep
  | accept
deriving Repr, DecidableEq

/-- The stale-vector guard of `capture_fft`: a capture numerically identical
to the previously accepted one is retried after 8 ms while fewer than 3
retries have been used, then the step is skipped (`sweep_ptr` advances
modulo the step count, retries reset); otherwise the capture is accepted and
recorded as `last_fft`. -/
def capture_stale_guard (numSteps : ℕ) (st : CaptureState) (mags : List ℚ) :
    CaptureState × CaptureOutcome :=
  match st.last_fft with
  | some prev =>
    if allclose mags prev (1 / 100000000) then
      if st.cap_retries < 3 then
        ({ st with cap_retries := st.cap_retries + 1 }, .retryLater 8)
      else
        ({ st with sweep_ptr := (st.sweep_ptr + 1) % numSteps, cap_retries := 0 }, .skipStep)
    else ({ st with last_fft := some mags }, .accept)
  | none => ({ st with last_fft := some mags }, .accept)

theorem zip_self_eq_map (l : List ℚ) : l.zip l = l.map (fun x => (x, x)) := by
  induction l with
  | nil => rfl
  | cons a tl ih => simp [List.zip_cons_cons, ih]

theorem allclose_self (l : List ℚ) (atol : ℚ) (h : 0 ≤ atol) :
    allclose l l atol = true := by
  unfold allclose
  rw [Bool.and_eq_true]
  refine ⟨by simp, ?_⟩
  rw [zip_self_eq_map, List.all_eq_true]
  intro p hp
  rcases List.mem_map.mp hp with ⟨x, -, rfl⟩
  simpa using h

/-- Claim C4: a capture identical (absolute tolerance 1e-8) to the
immediately preceding accepted capture is rejected with an 8 ms retry while
fewer than 3 retries have happened; once 3 retries have been used the step is
skipped without error and the pointer advances by one modulo the step count;
in particular feeding the same vector four times from a fresh retry counter
yields three retries and then a skip. -/
theorem C4_stale_capture_retry :
    (∀ (n : ℕ) (st : CaptureState) (mags prev : List ℚ),
      st.last_fft = some prev → allclose mags prev (1 / 100000000) = true →
      st.cap_retries < 3 →
      capture_stale_guard n st mags =
        ({ st with cap_retries := st.cap_retries + 1 }, .retryLater 8)) ∧
    (∀ (n : ℕ) (st : CaptureState) (mags prev : List ℚ),
      st.last_fft = some prev → allclose mags prev (1 / 100000000) = true →
      3 ≤ st.cap_retries →
      capture_stale_guard n st mags =
        ({ st with sweep_ptr := (st.sweep_ptr + 1) % n, cap_retries := 0 }, .skipStep)) ∧
    (∀ (n : ℕ) (st : CaptureState) (mags : List ℚ),
      st.last_fft = some mags → st.cap_retries = 0 →
      (capture_stale_guard n st mags).2 = .retryLater 8 ∧
      (capture_stale_guard n (capture_stale_guard n st mags).1 mags).2 = .retryLater 8 ∧
      (capture_stale_guard n (capture_stale_guard n
        (capture_stale_guard n st mags).1 mags).1 mags).2 = .retryLater 8 ∧
      (capture_stale_guard n (capture_stale_guard n (capture_stale_guard n
        (capture_stale_guard n st mags).1 mags).1 mags).1 mags) =
        ({ st with sweep_ptr := (st.sweep_ptr + 1) % n, cap_retries := 0 }, .skipStep)) := by
  have hretry : ∀ (n : ℕ) (st : CaptureState) (mags prev : List ℚ),
      st.last_fft = some prev → allclose mags prev (1 / 100000000) = true →
      st.cap_retries < 3 →
      capture_stale_guard n st mags =
        ({ st with cap_retries := st.cap_retries + 1 }, .retryLater 8) := by
    intro n st mags prev hl hc hr
    unfold capture_stale_guard
    rw [hl]
    dsimp only
    rw [if_pos hc, if_pos hr]
  have hskip : ∀ (n : ℕ) (st : CaptureState) (mags prev : List ℚ),
      st.last_fft = some prev → allclose mags prev (1 / 100000000) = true →
      3 ≤ st.cap_retries →
      capture_stale_guard n st mags =
        ({ st with sweep_ptr := (st.sweep_ptr + 1) % n, cap_retries := 0 }, .skipStep) := by
    intro n st mags prev hl hc hr
    unfold capture_stale_guard
    rw [hl]
    dsimp only
    rw [if_pos hc, if_neg (by omega : ¬ st.cap_retries < 3)]
  refine ⟨hretry, hskip, ?_⟩
  intro n st mags hl h0
  have hc : allclose mags mags (1 / 100000000) = true := allclose_self _ _ (by norm_num)
  have e1 := hretry n st mags mags hl hc (by omega)
  have e2 := hretry n ({ st with cap_retries := st.cap_retries + 1 }) mags mags hl hc
    (by dsimp only; omega)
  have e3 := hretry n ({ st with cap_retries := st.cap_retries + 1 + 1 }) mags mags hl hc
    (by dsimp only; omega)
  have e4 := hskip n ({ st with cap_retries := st.cap_retries + 1 + 1 + 1 }) mags mags hl hc
    (by dsimp only; omega)
  rw [e1]
  dsimp only
  rw [e2]
  dsimp only
  rw [e3]
  dsimp only
  rw [e4]
  exact ⟨rfl, rfl, rfl, rfl⟩

/-- Closed instance of C4: the capture `[1, 2]` equal to the recorded
`last_fft`, fed four times with three steps planned, gives three 8 ms retries
and then a skip that advances the pointer from 0 to 1. -/
theorem C4_stale_capture_retry_witness :
    (capture_stale_guard 3 ⟨0, 0, some [1, 2]⟩ [1, 2]).2 = .retryLater 8 ∧
    (capture_stale_guard 3 (capture_stale_guard 3 ⟨0, 0, some [1, 2]⟩ [1, 2]).1 [1, 2]).2 =
      .retryLater 8 ∧
    (capture_stale_guard 3 (capture_stale_guard 3
      (capture_stale_guard 3 ⟨0, 0, some [1, 2]⟩ [1, 2]).1 [1, 2]).1 [1, 2]).2 =
      .retryLater 8 ∧
    (capture_stale_guard 3 (capture_stale_guard 3 (capture_stale_guard 3
      (capture_stale_guard 3 ⟨0, 0, some [1, 2]⟩ [1, 2]).1 [1, 2]).1 [1, 2]).1 [1, 2]) =
      ({ sweep_ptr := 1, cap_retries := 0, last_fft := some [1, 2] }, .skipStep) :=
  C4_stale_capture_retry.2.2 3 ⟨0, 0, some [1, 2]⟩ [1, 2] rfl rfl

/-! ## Sweep capture: scaling and DC notch (capture_fft, lines 1791-1804) -/

/-- Python slice `l[a:b]` (for our uses `a ≤ b`; clipping at the ends comes
for free from `drop`/`take`). -/
def listSlice (l : List ℚ) (a b : ℕ) : List ℚ := (l.drop a).take (b - a)

/-- `np.mean` of a vector. -/
def listMean (l : List ℚ) : ℚ := l.sum / (l.length : ℚ)

/-- Elementwise model of the numpy slice assignment `mags[lo:hi] = v`; the
first argument of the recursion is the running index. -/
def assignRange (lo hi : ℕ) (v : ℚ) : ℕ → List ℚ → List ℚ
  | _, [] => []
  | i, x :: xs => (if lo ≤ i ∧ i < hi then v else x) :: assignRange lo hi v (i + 1) xs

/-- Scaling and DC-notch of a successful capture: `mags *= 1/fft_size`; then,
for `fft_size >= 16`, the bins `c-2 .. c+2` around the centre `c = fft_size//2`
are overwritten with the mean of `mags[max(0,c-5):max(0,c-3)]` and
`mags[min(n,c+3):min(n,c+5)]` (truncated ℕ subtraction models `max(0,·)`). -/
def capture_scale_notch (fftSize : ℕ) (magsIn : List ℚ) : List ℚ :=
  let mags := magsIn.map (fun x => x * (1 / (fftSize : ℚ)))
  let c := fftSize / 2
  let k := 2
  if 16 ≤ fftSize then
    let loL := c - (k + 3)
    let loR := c - (k + 1)
    let hiL := min fftSize (c + (k + 1))
    let hiR := min fftSize (c + (k + 3))
    let neigh := listSlice mags loL loR ++ listSlice mags hiL hiR
    if 2 ≤ neigh.length then
      assignRange (c - k) (min fftSize (c + k + 1)) (listMean neigh) 0 mags
    else mags
  else mags

/-- Modelled from the spec for the refinement comparison: the notch
replacement as the claim words it, with the mean taken over ALL bins lying
1-3 bins further out on each side of the `±2` notch, i.e. indices
`c-5 .. c-3` and `c+3 .. c+5`. -/
def spec_scale_notch (fftSize : ℕ) (magsIn : List ℚ) : List ℚ :=
  let mags := magsIn.map (fun x => x * (1 / (fftSize : ℚ)))
  let c := fftSize / 2
  if 16 ≤ fftSize then
    let neigh := listSlice mags (c - 5) (c - 2) ++ listSlice mags (c + 3) (c + 6)
    assignRange (c - 2) (c + 3) (listMean neigh) 0 mags
  else mags

/-- A 16-bin capture with a single spike at bin 5 (= `c-3`), which the
spec-worded mean would include but the code's mean does not. -/
def dcNotchEx : List ℚ := [0, 0, 0, 0, 0, 16, 0, 0, 0, 0, 0, 0, 0, 0, 0, 0]

theorem getD_assignRange (lo hi : ℕ) (v : ℚ) :
    ∀ (l : List ℚ) (i0 j : ℕ), j < l.length →
      (assignRange lo hi v i0 l).getD j 0 =
        if lo ≤ i0 + j ∧ i0 + j < hi then v else l.getD j 0 := by
  intro l
  induction l with
  | nil => intro i0 j h; simp at h
  | cons x xs ih =>
    intro i0 j h
    cases j with
    | zero =>
      simp [assignRange]
    | succ j =>
      rw [assignRange]
      simp only [List.getD_cons_succ]
      have harith : i0 + 1 + j = i0 + (j + 1) := by omega
      rw [ih (i0 + 1) j (by simpa using h), harith]

theorem slicePair (l : List ℚ) :
    ∀ (a : ℕ), a + 2 ≤ l.length →
      listSlice l a (a + 2) = [l.getD a 0, l.getD (a + 1) 0] := by
  induction l with
  | nil => intro a h; simp at h
  | cons x xs ih =>
    intro a h
    cases a with
    | zero =>
      cases xs with
      | nil => simp at h
      | cons y ys => simp [listSlice]
    | succ a =>
      have h2 : (a + 1) + 2 - (a + 1) = (a + 2) - a := by omega
      have := ih a (by simpa using h)
      rw [listSlice] at this ⊢
      rw [List.drop_succ_cons, h2]
      simpa using this

theorem mean_four (a b c d : ℚ) : listMean [a, b, c, d] = (a + b + c + d) / 4 := by
  simp [listMean]
  ring

/-- The code's notch, rewritten through `assignRange` with the four
neighbour bins it actually averages: `c-5, c-4, c+3, c+4`. -/
theorem capture_scale_notch_eq (fft : ℕ) (mags : List ℚ)
    (hlen : mags.length = fft) (h16 : 16 ≤ fft) :
    capture_scale_notch fft mags =
      assignRange (fft / 2 - 2) (fft / 2 + 3)
        (((mags.map fun x => x * (1 / (fft : ℚ))).getD (fft / 2 - 5) 0 +
          (mags.map fun x => x * (1 / (fft : ℚ))).getD (fft / 2 - 4) 0 +
          (mags.map fun x => x * (1 / (fft : ℚ))).getD (fft / 2 + 3) 0 +
          (mags.map fun x => x * (1 / (fft : ℚ))).getD (fft / 2 + 4) 0) / 4)
        0 (mags.map fun x => x * (1 / (fft : ℚ))) := by
  unfold capture_scale_notch
  rw [if_pos h16]
  dsimp only
  set scaled := mags.map fun x => x * (1 / (fft : ℚ)) with hscaled
  have hslen : scaled.length = fft := by rw [hscaled, List.length_map, hlen]
  have hc8 : 8 ≤ fft / 2 := by omega
  have hc5 : fft / 2 + 5 ≤ fft := by omega
  have hs1 : listSlice scaled (fft / 2 - (2 + 3)) (fft / 2 - (2 + 1)) =
      [scaled.getD (fft / 2 - 5) 0, scaled.getD (fft / 2 - 4) 0] := by
    have e0 : fft / 2 - (2 + 3) = fft / 2 - 5 := by omega
    have e1 : fft / 2 - (2 + 1) = (fft / 2 - 5) + 2 := by omega
    have e4 : fft / 2 - 5 + 1 = fft / 2 - 4 := by omega
    rw [e0, e1, slicePair scaled (fft / 2 - 5) (by omega), e4]
  have hs2 : listSlice scaled (min fft (fft / 2 + (2 + 1))) (min fft (fft / 2 + (2 + 3))) =
      [scaled.getD (fft / 2 + 3) 0, scaled.getD (fft / 2 + 4) 0] := by
    have e2 : min fft (fft / 2 + (2 + 1)) = fft / 2 + 3 := by omega
    have e3 : min fft (fft / 2 + (2 + 3)) = (fft / 2 + 3) + 2 := by omega
    have e4 : fft / 2 + 3 + 1 = fft / 2 + 4 := by omega
    rw [e2, e3, slicePair scaled (fft / 2 + 3) (by omega), e4]
  rw [hs1, hs2]
  simp only [List.cons_append, List.nil_append]
  rw [if_pos (by simp : 2 ≤ (List.length [scaled.getD (fft / 2 - 5) 0,
    scaled.getD (fft / 2 - 4) 0, scaled.getD (fft / 2 + 3) 0, scaled.getD (fft / 2 + 4) 0]))]
  rw [mean_four]
  rw [(by omega : min fft (fft / 2 + 2 + 1) = fft / 2 + 3)]

/-- Claim C7 (amended): on a successful capture the magnitudes are scaled by
`1/fftSize`; for `fftSize ≥ 16` the five central bins `c±2` are all replaced
by the mean of the FOUR bins at offsets `-5, -4, +3, +4` from the centre
(2-3 bins beyond the notch on the low side but only 1-2 bins beyond on the
high side), and for `fftSize < 16` the scaled magnitudes are written
unchanged. -/
theorem C7_scale_and_notch :
    (∀ (fft : ℕ) (mags : List ℚ), fft < 16 →
      capture_scale_notch fft mags = mags.map fun x => x * (1 / (fft : ℚ))) ∧
    (∀ (fft : ℕ) (mags : List ℚ), mags.length = fft → 16 ≤ fft →
      ∀ i : ℕ, i < fft →
        (capture_scale_notch fft mags).getD i 0 =
          if fft / 2 - 2 ≤ i ∧ i < fft / 2 + 3 then
            ((mags.map fun x => x * (1 / (fft : ℚ))).getD (fft / 2 - 5) 0 +
             (mags.map fun x => x * (1 / (fft : ℚ))).getD (fft / 2 - 4) 0 +
             (mags.map fun x => x * (1 / (fft : ℚ))).getD (fft / 2 + 3) 0 +
             (mags.map fun x => x * (1 / (fft : ℚ))).getD (fft / 2 + 4) 0) / 4
          else (mags.map fun x => x * (1 / (fft : ℚ))).getD i 0) := by
  constructor
  · intro fft mags hlt
    unfold capture_scale_notch
    rw [if_neg (by omega)]
  · intro fft mags hlen h16 i hi
    rw [capture_scale_notch_eq fft mags hlen h16]
    rw [getD_assignRange _ _ _ _ 0 i (by rw [List.length_map, hlen]; exact hi)]
    simp only [Nat.zero_add]

/-- C7 counterexample: at `fftSize = 16` with a spike at bin 5, the code's
notch mean (bins 3, 4, 11, 12 — all zero) differs from the spec-worded mean
over bins 3-5 and 11-13 (which catches the spike), so the claimed
replacement value is wrong: bin 8 becomes 0 under the code but 1/6 under the
spec's words. -/
theorem C7_scale_and_notch_counterexample :
    (capture_scale_notch 16 dcNotchEx).getD 8 0 = 0 ∧
    (spec_scale_notch 16 dcNotchEx).getD 8 0 = 1 / 6 ∧
    capture_scale_notch 16 dcNotchEx ≠ spec_scale_notch 16 dcNotchEx := by
  have h1 : (capture_scale_notch 16 dcNotchEx).getD 8 0 = 0 := by
    norm_num [capture_scale_notch, dcNotchEx, listSlice, listMean, assignRange]
  have h2 : (spec_scale_notch 16 dcNotchEx).getD 8 0 = 1 / 6 := by
    norm_num [spec_scale_notch, dcNotchEx, listSlice, listMean, assignRange]
  refine ⟨h1, h2, fun h => ?_⟩
  have := congrArg (fun l => l.getD 8 0) h
  simp only at this
  rw [h1, h2] at this
  norm_num at this

/-- Closed instance of C7 (amended) at `fftSize = 16`, bin 8. -/
theorem C7_scale_and_notch_witness :
    (capture_scale_notch 16 dcNotchEx).getD 8 0 =
      if 16 / 2 - 2 ≤ 8 ∧ 8 < 16 / 2 + 3 then
        ((dcNotchEx.map fun x => x * (1 / (16 : ℚ))).getD (16 / 2 - 5) 0 +
         (dcNotchEx.map fun x => x * (1 / (16 : ℚ))).getD (16 / 2 - 4) 0 +
         (dcNotchEx.map fun x => x * (1 / (16 : ℚ))).getD (16 / 2 + 3) 0 +
         (dcNotchEx.map fun x => x * (1 / (16 : ℚ))).getD (16 / 2 + 4) 0) / 4
      else (dcNotchEx.map fun x => x * (1 / (16 : ℚ))).getD 8 0 :=
  C7_scale_and_notch.2 16 dcNotchEx rfl (by norm_num) 8 (by norm_num)

/-! ## Stitched frequency axis (validate_sweep_inputs lines 1941-1943,
capture_fft lines 1817-1833) -/

/-- The concatenated frequency axis is the arithmetic progression
`start + k * (rate / fftSize)` over all `numSteps * fftSize` global bin
indices. -/
theorem sweepFreqAxis_eq_range (s r : ℚ) (fft : ℕ) (hfft : 0 < fft) :
    ∀ n : ℕ, sweepFreqAxis s r n fft =
      (List.range (n * fft)).map (fun k : ℕ => s + (k : ℚ) * (r / (fft : ℚ))) := by
  have hfq : ((fft : ℚ)) ≠ 0 := Nat.cast_ne_zero.mpr (by omega)
  intro n
  induction n with
  | zero => simp [sweepFreqAxis, sweepCenterFreqs]
  | succ n ih =>
    rw [sweepFreqAxis, sweepCenterFreqs, List.range_succ, List.map_append, List.map_append,
      List.flatten_append]
    have hstep : (n + 1) * fft = n * fft + fft := Nat.succ_mul n fft
    rw [hstep, List.range_add, List.map_append]
    congr 1
    · simp only [List.map_cons, List.map_nil, List.flatten_cons, List.flatten_nil,
        List.append_nil, binFreqs, List.map_map]
      refine List.map_congr_left ?_
      intro j hj
      simp only [Function.comp_apply]
      push_cast
      field_simp
      ring

/-- Strict monotonicity of the full axis. -/
theorem sweepFreqAxis_pairwise (s r : ℚ) (fft n : ℕ) (hr : 0 < r) (hfft : 0 < fft) :
    (sweepFreqAxis s r n fft).Pairwise (· < ·) := by
  rw [sweepFreqAxis_eq_range s r fft hfft n]
  rw [List.pairwise_map]
  refine (List.pairwise_lt_range _).imp ?_
  intro a b hab
  have hd : 0 < r / (fft : ℚ) := by
    apply div_pos hr
    exact_mod_cast hfft
  have : (a : ℚ) < (b : ℚ) := by exact_mod_cast hab
  nlinarith

/-- Claim C6: for a valid sweep plan the full frequency axis is the
concatenation over steps of `linspace(-step/2, step/2, fftSize, endpoint
excluded) + centerFreqs[i]` (this is `sweepFreqAxis`, and the plan produced
by `validate_sweep_inputs` carries exactly it), and its restriction to
`[start, end]` — the mask `(freq_axis >= start) & (freq_axis <= end)` of
`capture_fft` — is monotonically non-decreasing with every in-range bin
frequency appearing exactly once. -/
theorem C6_stitched_axis_monotone :
    (∀ (s e r : ℚ) (fft n : ℕ), 0 < r → 0 < fft →
      ((sweepFreqAxis s r n fft).filter
        (fun f => decide (s ≤ f) && decide (f ≤ e))).Pairwise (· ≤ ·) ∧
      ∀ x : ℚ,
        x ∈ (sweepFreqAxis s r n fft).filter (fun f => decide (s ≤ f) && decide (f ≤ e)) →
        ((sweepFreqAxis s r n fft).filter
          (fun f => decide (s ≤ f) && decide (f ≤ e))).count x = 1) ∧
    (∀ (sRaw eRaw r : ℚ) (fft : ℕ) (p : SweepPlan),
      validate_sweep_inputs sRaw eRaw r fft = some p →
      p.freqAxis = sweepFreqAxis (clampFreq sRaw) r p.numSteps fft) := by
  constructor
  · intro s e r fft n hr hfft
    have hpw : ((sweepFreqAxis s r n fft).filter
        (fun f => decide (s ≤ f) && decide (f ≤ e))).Pairwise (· < ·) :=
      (sweepFreqAxis_pairwise s r fft n hr hfft).filter _
    refine ⟨hpw.imp le_of_lt, ?_⟩
    intro x hx
    exact List.count_eq_one_of_mem (hpw.imp ne_of_lt) hx
  · intro sRaw eRaw r fft p h
    unfold validate_sweep_inputs at h
    dsimp only at h
    split_ifs at h
    rw [Option.some_inj] at h
    subst h
    rfl

/-- Closed instance of C6 at `start=80e6, end=120e6, rate=20e6, fftSize=4`,
two steps. -/
theorem C6_stitched_axis_monotone_witness :
    ((sweepFreqAxis 80000000 20000000 2 4).filter
      (fun f => decide ((80000000 : ℚ) ≤ f) && decide (f ≤ (120000000 : ℚ)))).Pairwise (· ≤ ·) ∧
    ∀ x : ℚ,
      x ∈ (sweepFreqAxis 80000000 20000000 2 4).filter
        (fun f => decide ((80000000 : ℚ) ≤ f) && decide (f ≤ (120000000 : ℚ))) →
      ((sweepFreqAxis 80000000 20000000 2 4).filter
        (fun f => decide ((80000000 : ℚ) ≤ f) && decide (f ≤ (120000000 : ℚ)))).count x = 1 :=
  C6_stitched_axis_monotone.1 80000000 120000000 20000000 4 2 (by norm_num) (by norm_num)

/-! ## Detector: adaptive occupancy requirement (check_jamming, lines
2049-2060) -/

/-- `occ_req = max(0.10, min(0.45, jam_occ_min * scale))` where
`scale = (256.0 / max(64.0, Nmask)) ** 0.5`.  The square root is irrational
for general `Nmask`, so `scale` is carried as a parameter and pinned down in
theorems by its square. -/
def occReqBase (occ_min scale : ℚ) : ℚ := max (1 / 10) (min (45 / 100) (occ_min * scale))

/-- The flatness-relief tiers applied to `occ_req` (lines 2052-2053):
`sfm_db >= -3.5` yields `max(0.10, 0.85*occ_req)`, else `sfm_db >= -4.0`
yields `max(0.12, 0.92*occ_req)`. -/
def occReqRelieved (occ_min scale sfm_db : ℚ) : ℚ :=
  let r := occReqBase occ_min scale
  if -(35 / 10) ≤ sfm_db then max (1 / 10) ((85 / 100) * r)
  else if -4 ≤ sfm_db then max (12 / 100) ((92 / 100) * r)
  else r

/-- The anti-flicker smoothing of the requirement (lines 2056-2059):
seeded on the first tick, then `0.6*ema + 0.4*occ_req`. -/
def occReqEmaStep (prev : Option ℚ) (r : ℚ) : ℚ :=
  match prev with
  | none => r
  | some e => (6 / 10) * e + (4 / 10) * r

/-- `occ_req_eff = float(np.clip(self._occ_req_ema, 0.10, 0.45))` (line 2060). -/
def occReqEff (ema : ℚ) : ℚ := min (max ema (1 / 10)) (45 / 100)

/-- Modelled from the spec for the refinement comparison: the claim's
occupancy-requirement formula, which multiplies the clamped base by 0.85 or
0.92 with NO re-flooring. -/
def occReqClaim (occ_min scale sfm_db : ℚ) : ℚ :=
  let r := occReqBase occ_min scale
  if -(35 / 10) ≤ sfm_db then (85 / 100) * r
  else if -4 ≤ sfm_db then (92 / 100) * r
  else r

/-- C5 counterexample: at `Nmask = 256` the true scale is exactly 1 (its
square times `max(64, 256)` is 256); with `occMin = 0.10` and flatness
`-3.8 dB` the code floors the relieved requirement at 0.12, whereas the
claim's formula gives `0.92 × 0.10 = 0.092`. -/
theorem C5_occupancy_requirement_counterexample :
    ((0 : ℚ) ≤ 1 ∧ (1 : ℚ) ^ 2 * max 64 256 = 256) ∧
    occReqRelieved (1 / 10) 1 (-(38 / 10)) = 12 / 100 ∧
    occReqClaim (1 / 10) 1 (-(38 / 10)) = 92 / 1000 ∧
    occReqRelieved (1 / 10) 1 (-(38 / 10)) ≠ occReqClaim (1 / 10) 1 (-(38 / 10)) := by
  refine ⟨⟨by norm_num, by norm_num⟩, ?_, ?_, ?_⟩
  · norm_num [occReqRelieved, occReqBase]
  · norm_num [occReqClaim, occReqBase]
  · norm_num [occReqRelieved, occReqClaim, occReqBase]

/-- Claim C5 (amended): the base requirement is
`clamp(occMin*sqrt(256/max(64,N)), 0.10, 0.45)`; when flatness `≥ -3.5 dB`
it is replaced by `max(0.10, 0.85×base)`, else when flatness `≥ -4.0 dB` by
`max(0.12, 0.92×base)`; the effective requirement is an EMA (factor 0.4) of
this value clipped to `[0.10, 0.45]`; and for `N = 1000`, `occMin = 0.5`
(low flatness) the requirement lies in `[0.2529, 0.2530] ∋ ≈0.253`, where
the true `scale = sqrt(256/1000)` lies in `[0.5059, 0.506]` because the
squares of those bounds bracket `0.256`. -/
theorem C5_occupancy_requirement :
    (∀ occ_min scale sfm_db : ℚ,
      (1 / 10) ≤ occReqBase occ_min scale ∧ occReqBase occ_min scale ≤ (45 / 100) ∧
      occReqRelieved occ_min scale sfm_db =
        (if -(35 / 10) ≤ sfm_db then max (1 / 10) ((85 / 100) * occReqBase occ_min scale)
         else if -4 ≤ sfm_db then max (12 / 100) ((92 / 100) * occReqBase occ_min scale)
         else occReqBase occ_min scale)) ∧
    (∀ e r : ℚ, occReqEff (occReqEmaStep (some e) r) =
      min (max ((6 / 10) * e + (4 / 10) * r) (1 / 10)) (45 / 100)) ∧
    ((5059 / 10000 : ℚ) ^ 2 * 1000 ≤ 256 ∧ (256 : ℚ) ≤ (253 / 500) ^ 2 * 1000) ∧
    (∀ s sfm_db : ℚ, (5059 / 10000) ≤ s → s ≤ (253 / 500) → sfm_db < -4 →
      (2529 / 10000) ≤ occReqRelieved (1 / 2) s sfm_db ∧
      occReqRelieved (1 / 2) s sfm_db ≤ (253 / 1000)) := by
  refine ⟨?_, ?_, ⟨by norm_num, by norm_num⟩, ?_⟩
  · intro occ_min scale sfm_db
    refine ⟨le_max_left _ _, max_le (by norm_num) (min_le_left _ _), rfl⟩
  · intro e r
    rfl
  · intro s sfm_db hs1 hs2 hsfm
    rw [occReqRelieved, if_neg (by linarith), if_neg (by linarith)]
    rw [occReqBase, min_eq_right (by linarith), max_eq_right (by linarith)]
    constructor <;> linarith

/-- Closed instance of C5 (amended) at the lower scale bracket
`s = 0.5059`, flatness `-5 dB`. -/
theorem C5_occupancy_requirement_witness :
    (2529 / 10000 : ℚ) ≤ occReqRelieved (1 / 2) (5059 / 10000) (-5) ∧
    occReqRelieved (1 / 2) (5059 / 10000) (-5) ≤ (253 / 1000) :=
  C5_occupancy_requirement.2.2.2 (5059 / 10000) (-5) (by norm_num) (by norm_num) (by norm_num)

/-! ## Detector tick (check_jamming, lines 1986-2162)

The tick is embedded as explicit state passing.  Quantities that numpy
computes with transcendental functions — the spectral flatness `sfm_db`
(10*log10 of a geometric/arithmetic mean ratio), the band lift `band_lift`
(10*log10 of a power ratio) and the stickiness decay
`decay = 0.5 ** max(0, age/8)` — are carried as per-tick inputs, and the
occupancy scale `(256/max(64,Nmask))**0.5` as a configuration parameter;
the control flow downstream consumes them only through comparisons, so the
theorems quantify over all their values. -/

/-- Insertion into a sorted list (ascending). -/
def insertSorted (x : ℚ) : List ℚ → List ℚ
  | [] => [x]
  | y :: ys => if x ≤ y then x :: y :: ys else y :: insertSorted x ys

/-- Insertion sort, the sorting model behind `np.median`. -/
def sortQ : List ℚ → List ℚ
  | [] => []
  | x :: xs => insertSorted x (sortQ xs)

/-- `np.median`: the middle element of the sorted vector for odd length, the
average of the two middle elements for even length. -/
def median (l : List ℚ) : ℚ :=
  let s := sortQ l
  let n := s.length
  if n % 2 = 1 then s.getD (n / 2) 0
  else (s.getD (n / 2 - 1) 0 + s.getD (n / 2) 0) / 2

/-- numpy boolean-mask indexing `xs[m]`. -/
def maskList (m : List Bool) (xs : List ℚ) : List ℚ :=
  ((m.zip xs).filter (fun p => p.1)).map (fun p => p.2)

/-- `np.sum` over a boolean vector. -/
def countTrue (l : List Bool) : ℕ := l.count true

def longestRunAux : List Bool → ℕ → ℕ → ℕ
  | [], cur, best => max cur best
  | b :: rest, cur, best =>
    if b then longestRunAux rest (cur + 1) best
    else longestRunAux rest 0 (max cur best)

/-- Length of the longest contiguous run of `true` (the pad/diff
computation of lines 2069-2076). -/
def longestRun (l : List Bool) : ℕ := longestRunAux l 0 0

/-- Detector configuration.  Source defaults (lines 676-692):
`jam_alpha=0.05, jam_thresh_db=6.5, jam_occ_min=0.5, jam_occ_multipeak=0.15,
jam_span_min=0.008, jam_sfm_min_db=-5.0, sfm_offset=0.8, jam_median_db=2.0,
jam_band_db=1.5, jam_hold_s=0.4, jam_cooldown_s=4.0,
ports=[A4,A3,A2,A1,B4,B3,B2,B1]`.  `occ_scale` stands for the irrational
`(256/max(64,Nmask))**0.5`. -/
structure JamCfg where
  fft_size : ℕ
  mask : List Bool
  jam_alpha : ℚ
  jam_thresh_db : ℚ
  jam_occ_min : ℚ
  jam_sfm_min_db : ℚ
  sfm_offset : ℚ
  jam_occ_multipeak : ℚ
  jam_span_min : ℚ
  jam_band_db : ℚ
  jam_median_db : ℚ
  jam_hold_s : ℚ
  jam_cooldown_s : ℚ
  occ_scale : ℚ
  ports : List String
deriving Repr, DecidableEq

/-- The mutable detector state (section 675-693 of the source and the
attributes written by `check_jamming` / `update_antenna`). -/
structure JamState where
  jam_baseline_db : Option (List ℚ)
  jam_ready_at : ℚ
  jam_ignore_until : ℚ
  baseline_freeze_until : ℚ
  sfm_ref : Option ℚ
  occ_req_ema : Option ℚ
  band_state : Bool
  med_state : Bool
  score_ema : Option ℚ
  jam_started : Option ℚ
  jam_last_switch : ℚ
  jam_cooldown_until : ℚ
  last_score_at_switch : ℚ
  current_port_index : ℕ
  antenna_select : String
deriving Repr, DecidableEq

/-- The externally observable port switch: the rotated target port and the
tick time at which the switch was committed. -/
structure PortSwitchEvent where
  targetPort : String
  timestamp : ℚ
deriving Repr, DecidableEq

/-- One tick's inputs: the wall time, the (already validated and
dB-converted) power spectrum, and the transcendental oracles. -/
structure JamTickInput where
  now : ℚ
  power_db : List ℚ
  sfm_db : ℚ
  band_lift : ℚ
  decay : ℚ
deriving Repr, DecidableEq

/-- Result of the analysis phase of a tick: either an early return with the
updated state, or the statistics needed by the hold/cooldown gate. -/
inductive JamFrontResult where
  | halt (st : JamState)
  | go (st : JamState) (cond improves : Bool) (score_val : ℚ)
deriving Repr, DecidableEq

/-- The per-tick statistics of `check_jamming` (lines 2036-2125), computed
from the pre-tick state and the EMA-updated baseline: flatness reference and
gate, per-bin over-threshold occupancy, the adaptive requirement, span
fraction, band/median hysteresis, the freeze re-arm, the composite trigger
`cond`, the stickiness score EMA and the `improves` verdict. -/
structure JamAnalysis where
  freeze1 : ℚ
  sfm_ref1 : ℚ
  ema1 : ℚ
  band_ok : Bool
  med_ok : Bool
  score_ema1 : ℚ
  cond : Bool
  improves : Bool
deriving Repr, DecidableEq

def jamAnalysis (cfg : JamCfg) (st : JamState) (inp : JamTickInput)
    (base : List ℚ) : JamAnalysis :=
  let masked_curr := maskList cfg.mask inp.power_db
  let masked_base := maskList cfg.mask base
  let nmask := masked_curr.length
  let med_lift := median masked_curr - median masked_base
  let sfm_ref1 :=
    match st.sfm_ref with
    | none => inp.sfm_db
    | some rf => (95 / 100) * rf + (5 / 100) * inp.sfm_db
  let sfm_gate := max cfg.jam_sfm_min_db (sfm_ref1 + cfg.sfm_offset)
  let over := List.zipWith (fun c b => decide (cfg.jam_thresh_db ≤ c - b))
    masked_curr masked_base
  let nOver := countTrue over
  let occ : ℚ := (nOver : ℚ) / ((max 1 nmask : ℕ) : ℚ)
  let occ_req := occReqRelieved cfg.jam_occ_min cfg.occ_scale inp.sfm_db
  let ema1 := occReqEmaStep st.occ_req_ema occ_req
  let occ_req_eff := occReqEff ema1
  let span_frac : ℚ := ((longestRun over : ℕ) : ℚ) / (nmask : ℚ)
  let band_on := cfg.jam_band_db
  let med_on := cfg.jam_median_db
  let band_off := max (1 / 2) (band_on - 8 / 10)
  let med_off := max (1 / 2) (med_on - 8 / 10)
  let band_ok : Bool :=
    decide ((if st.band_state then band_off else band_on) ≤ inp.band_lift)
  let med_ok : Bool :=
    decide ((if st.med_state then med_off else med_on) ≤ med_lift)
  let min_bins := max 6 (Int.toNat ⌊(6 / 1000 : ℚ) * (nmask : ℚ)⌋)
  let enough_bins : Bool := decide (min_bins ≤ nOver)
  let pre : Bool := decide ((8 / 10) * occ_req_eff ≤ occ) &&
    (decide ((8 / 10) * band_on ≤ inp.band_lift) ||
     decide ((8 / 10) * med_on ≤ med_lift) ||
     decide ((8 / 10) * cfg.jam_span_min ≤ span_frac))
  let freeze1 :=
    if pre = true ∧ st.baseline_freeze_until ≤ inp.now then inp.now + 6 / 10
    else st.baseline_freeze_until
  let cond_wideband := enough_bins && decide (occ_req_eff ≤ occ) &&
    (decide (sfm_gate ≤ inp.sfm_db) || band_ok)
  let cond_multipeak := enough_bins && decide (cfg.jam_occ_multipeak ≤ occ) &&
    decide (cfg.jam_span_min ≤ span_frac)
  let cond := cond_wideband || cond_multipeak || med_ok
  let score := (6 / 10) * (occ / max occ_req_eff (1 / 1000000)) +
    (25 / 100) * max 0 (inp.band_lift / max band_on (1 / 1000000)) +
    (15 / 100) * max 0 (med_lift / max med_on (1 / 1000000))
  let score_ema1 :=
    match st.score_ema with
    | none => score
    | some e => (8 / 10) * e + (2 / 10) * score
  let need := max (11 / 10) (st.last_score_at_switch * inp.decay + 1 / 10)
  let improves : Bool := decide (need ≤ score_ema1)
  { freeze1 := freeze1, sfm_ref1 := sfm_ref1, ema1 := ema1, band_ok := band_ok,
    med_ok := med_ok, score_ema1 := score_ema1, cond := cond, improves := improves }

/-- The analysis phase of `check_jamming` (lines 1992-2125): capture guards,
baseline EMA under the freeze window, the ignore/ready windows, the masked
bin-count guard, the 8 dB median-step safety valve, and on survival the
statistics of `jamAnalysis` folded into the state. -/
def jamFront (cfg : JamCfg) (st : JamState) (inp : JamTickInput) : JamFrontResult :=
  if inp.power_db.length ≠ cfg.fft_size then .halt st
  else if inp.now < st.jam_ignore_until then .halt st
  else
    match st.jam_baseline_db with
    | none => .halt { st with jam_baseline_db := some inp.power_db }
    | some base0 =>
      let base :=
        if st.baseline_freeze_until ≤ inp.now then
          List.zipWith (fun b p => (1 - cfg.jam_alpha) * b + cfg.jam_alpha * p)
            base0 inp.power_db
        else base0
      let st1 := { st with jam_baseline_db := some base }
      if inp.now < st1.jam_ready_at then .halt st1
      else if (maskList cfg.mask inp.power_db).length = 0 then .halt st1
      else if 8 < median (maskList cfg.mask inp.power_db) -
                  median (maskList cfg.mask base) then
        .halt { st1 with
                jam_baseline_db := some inp.power_db,
                jam_ignore_until := inp.now + 8 / 10 }
      else
        let a := jamAnalysis cfg st inp base
        .go { st1 with
              baseline_freeze_until := a.freeze1,
              sfm_ref := some a.sfm_ref1,
              occ_req_ema := some a.ema1,
              band_state := a.band_ok,
              med_state := a.med_ok,
              score_ema := some a.score_ema1 } a.cond a.improves a.score_ema1

/-- The hold / cooldown / dwell gate and port rotation of `check_jamming`
(lines 2127-2159), folding in the effects of the inner `update_antenna`
call (whose ready/last-switch/baseline writes are overwritten by the reset
lines that follow it). -/
def jamGate (cfg : JamCfg) (st : JamState) (now : ℚ) (power_db : List ℚ)
    (sfm_db : ℚ) (cond improves : Bool) (score_val : ℚ) :
    JamState × Option PortSwitchEvent :=
  if cond = true ∧ improves = true then
    let started := st.jam_started.getD now
    let held := decide (cfg.jam_hold_s ≤ now - started)
    let dwell_ok := decide ((6 / 10 : ℚ) ≤ now - st.jam_last_switch)
    let cooldown_ok := decide (st.jam_cooldown_until ≤ now)
    if held && dwell_ok && cooldown_ok then
      let new_port := cfg.ports.getD ((st.current_port_index + 1) % cfg.ports.length) ""
      ({ st with
          jam_started := none,
          current_port_index := cfg.ports.indexOf new_port,
          antenna_select := new_port,
          jam_last_switch := now,
          jam_cooldown_until := now + cfg.jam_cooldown_s,
          jam_ready_at := now + 8 / 10,
          baseline_freeze_until := now + 6 / 10,
          jam_baseline_db := some power_db,
          sfm_ref := some sfm_db,
          last_score_at_switch := score_val },
        some ⟨new_port, now⟩)
    else ({ st with jam_started := some started }, none)
  else ({ st with jam_started := none }, none)

/-- One full `check_jamming` tick. -/
def jamTick (cfg : JamCfg) (st : JamState) (inp : JamTickInput) :
    JamState × Option PortSwitchEvent :=
  match jamFront cfg st inp with
  | .halt st1 => (st1, none)
  | .go st1 cond improves score_val =>
    jamGate cfg st1 inp.now inp.power_db inp.sfm_db cond improves score_val

/-- A whole detection run: the final state and the port-switch events in
order. -/
def jamRun (cfg : JamCfg) : JamState → List JamTickInput → JamState × List PortSwitchEvent
  | st, [] => (st, [])
  | st, inp :: rest =>
    let r := jamTick cfg st inp
    let rr := jamRun cfg r.1 rest
    (rr.1, r.2.toList ++ rr.2)

/-- Every early return of the analysis phase leaves the gating fields
(cooldown deadline, hold start, last-switch time, port index, selection)
untouched. -/
theorem jamFront_halt_preserves (cfg : JamCfg) (st : JamState) (inp : JamTickInput)
    (st1 : JamState) (h : jamFront cfg st inp = .halt st1) :
    st1.jam_cooldown_until = st.jam_cooldown_until ∧
    st1.jam_started = st.jam_started ∧
    st1.jam_last_switch = st.jam_last_switch ∧
    st1.current_port_index = st.current_port_index ∧
    st1.antenna_select = st.antenna_select := by
  unfold jamFront at h
  dsimp only at h
  repeat' split at h
  all_goals first
    | (cases h; exact ⟨rfl, rfl, rfl, rfl, rfl⟩)
    | simp at h

/-- The state handed to the gate keeps the gating fields of the pre-tick
state. -/
theorem jamFront_go_preserves (cfg : JamCfg) (st : JamState) (inp : JamTickInput)
    (st1 : JamState) (c i : Bool) (sv : ℚ) (h : jamFront cfg st inp = .go st1 c i sv) :
    st1.jam_cooldown_until = st.jam_cooldown_until ∧
    st1.jam_started = st.jam_started ∧
    st1.jam_last_switch = st.jam_last_switch ∧
    st1.current_port_index = st.current_port_index ∧
    st1.antenna_select = st.antenna_select := by
  unfold jamFront at h
  dsimp only at h
  repeat' split at h
  all_goals first
    | (cases h; exact ⟨rfl, rfl, rfl, rfl, rfl⟩)
    | simp at h

/-- Gate behaviour of the cooldown deadline: no event leaves it unchanged;
an event requires the deadline to have passed and re-arms it to
`now + jam_cooldown_s`. -/
theorem jamGate_cooldown (cfg : JamCfg) (st : JamState) (now : ℚ) (power_db : List ℚ)
    (sfm_db : ℚ) (c i : Bool) (sv : ℚ) :
    ((jamGate cfg st now power_db sfm_db c i sv).2 = none →
      (jamGate cfg st now power_db sfm_db c i sv).1.jam_cooldown_until =
        st.jam_cooldown_until) ∧
    (∀ e : PortSwitchEvent, (jamGate cfg st now power_db sfm_db c i sv).2 = some e →
      e.timestamp = now ∧ st.jam_cooldown_until ≤ e.timestamp ∧
      (jamGate cfg st now power_db sfm_db c i sv).1.jam_cooldown_until =
        e.timestamp + cfg.jam_cooldown_s) := by
  unfold jamGate
  dsimp only
  split
  · split
    case isTrue hcond =>
      rw [Bool.and_eq_true, Bool.and_eq_true] at hcond
      have hcool : st.jam_cooldown_until ≤ now := of_decide_eq_true hcond.2
      refine ⟨fun hn => by simp at hn, ?_⟩
      rintro e he
      rw [Option.some_inj] at he
      subst he
      exact ⟨rfl, hcool, rfl⟩
    case isFalse =>
      exact ⟨fun _ => rfl, fun e he => by simp at he⟩
  · exact ⟨fun _ => rfl, fun e he => by simp at he⟩

/-- Tick-level cooldown behaviour. -/
theorem jamTick_cooldown (cfg : JamCfg) (st : JamState) (inp : JamTickInput) :
    ((jamTick cfg st inp).2 = none →
      (jamTick cfg st inp).1.jam_cooldown_until = st.jam_cooldown_until) ∧
    (∀ e : PortSwitchEvent, (jamTick cfg st inp).2 = some e →
      e.timestamp = inp.now ∧ st.jam_cooldown_until ≤ e.timestamp ∧
      (jamTick cfg st inp).1.jam_cooldown_until = e.timestamp + cfg.jam_cooldown_s) := by
  unfold jamTick
  cases hfr : jamFront cfg st inp with
  | halt st1 =>
    have hp := (jamFront_halt_preserves cfg st inp st1 hfr).1
    exact ⟨fun _ => hp, fun e he => by simp at he⟩
  | go st1 c i sv =>
    have hp := (jamFront_go_preserves cfg st inp st1 c i sv hfr).1
    have hg := jamGate_cooldown cfg st1 inp.now inp.power_db inp.sfm_db c i sv
    refine ⟨fun hn => ?_, fun e he => ?_⟩
    · rw [hg.1 hn, hp]
    · obtain ⟨h1, h2, h3⟩ := hg.2 e he
      exact ⟨h1, hp ▸ h2, h3⟩

/-- Run-level strengthening: events are spaced by the cooldown, and the
first event cannot come before the initial cooldown deadline. -/
theorem jamRun_cooldown_aux (cfg : JamCfg) :
    ∀ (inputs : List JamTickInput) (st : JamState),
      List.Chain' (fun a b : PortSwitchEvent =>
        a.timestamp + cfg.jam_cooldown_s ≤ b.timestamp) (jamRun cfg st inputs).2 ∧
      (∀ e : PortSwitchEvent, ((jamRun cfg st inputs).2).head? = some e →
        st.jam_cooldown_until ≤ e.timestamp) := by
  intro inputs
  induction inputs with
  | nil =>
    intro st
    exact ⟨List.chain'_nil, fun e he => by simp [jamRun] at he⟩
  | cons inp rest ih =>
    intro st
    have htick := jamTick_cooldown cfg st inp
    rcases hev : (jamTick cfg st inp).2 with _ | e0
    · have hcool := htick.1 hev
      have hrest := ih (jamTick cfg st inp).1
      constructor
      · simpa [jamRun, hev] using hrest.1
      · intro e he
        simp only [jamRun, hev, Option.toList_none, List.nil_append] at he
        calc st.jam_cooldown_until = (jamTick cfg st inp).1.jam_cooldown_until := hcool.symm
          _ ≤ e.timestamp := hrest.2 e he
    · obtain ⟨ht, hge, hset⟩ := htick.2 e0 hev
      have hrest := ih (jamTick cfg st inp).1
      constructor
      · rw [jamRun]
        simp only [hev, Option.toList_some, List.cons_append, List.nil_append]
        rw [List.chain'_cons']
        refine ⟨?_, hrest.1⟩
        intro b hb
        have := hrest.2 b hb
        rw [hset] at this
        exact this
      · intro e he
        simp only [jamRun, hev, Option.toList_some, List.cons_append, List.nil_append,
          List.head?_cons, Option.some_inj] at he
        subst he
        exact hge

/-- Claim C2: in detection mode, any two consecutive port-switch events are
separated by at least `jam_cooldown_s` (default 4 s, line 686): a switch
re-arms the cooldown deadline to `now + jam_cooldown_s`, and a switch can
only fire once the pre-tick deadline has passed, under every sequence of
tick inputs (continuously-triggering ones included). -/
theorem C2_cooldown_spacing :
    (∀ (cfg : JamCfg) (st : JamState) (inputs : List JamTickInput),
      List.Chain' (fun a b : PortSwitchEvent =>
        a.timestamp + cfg.jam_cooldown_s ≤ b.timestamp) (jamRun cfg st inputs).2) ∧
    (∀ (cfg : JamCfg) (st : JamState) (inp : JamTickInput) (e : PortSwitchEvent),
      (jamTick cfg st inp).2 = some e →
      e.timestamp = inp.now ∧ st.jam_cooldown_until ≤ e.timestamp ∧
      (jamTick cfg st inp).1.jam_cooldown_until = e.timestamp + cfg.jam_cooldown_s) :=
  ⟨fun cfg st inputs => (jamRun_cooldown_aux cfg inputs st).1,
   fun cfg st inp e he => (jamTick_cooldown cfg st inp).2 e he⟩

/-- Claim C3: the hold is non-sticky and firing is fully characterised.
(1) The analysis phase never touches the hold start, so the gate sees the
pre-tick `jam_started`.  (2) On any gated tick where the composite trigger
or the stickiness verdict is false, the hold start resets (back to Armed).
(3) An event fires exactly when both are true, the hold has lasted at least
`jam_hold_s` (default 0.4 s), the dwell since the last switch is at least
0.6 s, and the cooldown has elapsed.  (4) When gating fails the hold start
persists (entering/continuing Holding).  (5) On firing, the next port in
the fixed cyclic order is selected, the baseline is reset to the current
spectrum, the flatness reference is reset to the tick's flatness, and the
score EMA is recorded as the new stickiness baseline. -/
theorem C3_hold_and_fire :
    (∀ (cfg : JamCfg) (st : JamState) (inp : JamTickInput) (st1 : JamState)
       (c i : Bool) (sv : ℚ),
      jamFront cfg st inp = .go st1 c i sv → st1.jam_started = st.jam_started) ∧
    (∀ (cfg : JamCfg) (st : JamState) (now : ℚ) (pdb : List ℚ) (sfm : ℚ)
       (c i : Bool) (sv : ℚ), ¬ (c = true ∧ i = true) →
      jamGate cfg st now pdb sfm c i sv = ({ st with jam_started := none }, none)) ∧
    (∀ (cfg : JamCfg) (st : JamState) (now : ℚ) (pdb : List ℚ) (sfm : ℚ)
       (c i : Bool) (sv : ℚ),
      (jamGate cfg st now pdb sfm c i sv).2.isSome = true ↔
        (c = true ∧ i = true ∧ cfg.jam_hold_s ≤ now - st.jam_started.getD now ∧
         (6 / 10 : ℚ) ≤ now - st.jam_last_switch ∧ st.jam_cooldown_until ≤ now)) ∧
    (∀ (cfg : JamCfg) (st : JamState) (now : ℚ) (pdb : List ℚ) (sfm : ℚ)
       (c i : Bool) (sv : ℚ),
      c = true → i = true →
      ¬ (cfg.jam_hold_s ≤ now - st.jam_started.getD now ∧
         (6 / 10 : ℚ) ≤ now - st.jam_last_switch ∧ st.jam_cooldown_until ≤ now) →
      jamGate cfg st now pdb sfm c i sv =
        ({ st with jam_started := some (st.jam_started.getD now) }, none)) ∧
    (∀ (cfg : JamCfg) (st : JamState) (now : ℚ) (pdb : List ℚ) (sfm : ℚ)
       (c i : Bool) (sv : ℚ),
      c = true → i = true →
      cfg.jam_hold_s ≤ now - st.jam_started.getD now →
      (6 / 10 : ℚ) ≤ now - st.jam_last_switch → st.jam_cooldown_until ≤ now →
      jamGate cfg st now pdb sfm c i sv =
        ({ st with
            jam_started := none,
            current_port_index := cfg.ports.indexOf
              (cfg.ports.getD ((st.current_port_index + 1) % cfg.ports.length) ""),
            antenna_select :=
              cfg.ports.getD ((st.current_port_index + 1) % cfg.ports.length) "",
            jam_last_switch := now,
            jam_cooldown_until := now + cfg.jam_cooldown_s,
            jam_ready_at := now + 8 / 10,
            baseline_freeze_until := now + 6 / 10,
            jam_baseline_db := some pdb,
            sfm_ref := some sfm,
            last_score_at_switch := sv },
         some ⟨cfg.ports.getD ((st.current_port_index + 1) % cfg.ports.length) "",
               now⟩)) := by
  refine ⟨?_, ?_, ?_, ?_, ?_⟩
  · intro cfg st inp st1 c i sv h
    exact (jamFront_go_preserves cfg st inp st1 c i sv h).2.1
  · intro cfg st now pdb sfm c i sv h
    unfold jamGate
    rw [if_neg h]
  · intro cfg st now pdb sfm c i sv
    unfold jamGate
    dsimp only
    split
    case isTrue hci =>
      split
      case isTrue hg =>
        rw [Bool.and_eq_true, Bool.and_eq_true] at hg
        simp only [Option.isSome_some, true_iff]
        exact ⟨hci.1, hci.2, of_decide_eq_true hg.1.1, of_decide_eq_true hg.1.2,
          of_decide_eq_true hg.2⟩
      case isFalse hg =>
        simp only [Option.isSome_none, Bool.false_eq_true, false_iff]
        rintro ⟨-, -, h1, h2, h3⟩
        exact hg (by simp only [Bool.and_eq_true, decide_eq_true_eq]
                     exact ⟨⟨h1, h2⟩, h3⟩)
    case isFalse hci =>
      simp only [Option.isSome_none, Bool.false_eq_true, false_iff]
      rintro ⟨h1, h2, -⟩
      exact hci ⟨h1, h2⟩
  · intro cfg st now pdb sfm c i sv hc hi hneg
    unfold jamGate
    rw [if_pos ⟨hc, hi⟩]
    dsimp only
    rw [if_neg (fun heq => by
      simp only [Bool.and_eq_true, decide_eq_true_eq] at heq
      exact hneg ⟨heq.1.1, heq.1.2, heq.2⟩)]
  · intro cfg st now pdb sfm c i sv hc hi h1 h2 h3
    unfold jamGate
    rw [if_pos ⟨hc, hi⟩]
    dsimp only
    rw [if_pos (by simp only [Bool.and_eq_true, decide_eq_true_eq]
                   exact ⟨⟨h1, h2⟩, h3⟩)]

/-- Claim C8, part of the tick: when the masked median of the current power
exceeds the masked median of the (EMA-updated) baseline by more than 8 dB,
the tick snaps the baseline to the current spectrum, suppresses detection
until `now + 0.8 s`, and emits no port switch; and any tick arriving before
`jam_ignore_until` is a no-op. -/
theorem C8_median_step_guard :
    (∀ (cfg : JamCfg) (st : JamState) (inp : JamTickInput) (base0 base : List ℚ),
      inp.power_db.length = cfg.fft_size →
      st.jam_ignore_until ≤ inp.now →
      st.jam_baseline_db = some base0 →
      st.jam_ready_at ≤ inp.now →
      base = (if st.baseline_freeze_until ≤ inp.now
              then List.zipWith (fun b p => (1 - cfg.jam_alpha) * b + cfg.jam_alpha * p)
                     base0 inp.power_db
              else base0) →
      (maskList cfg.mask inp.power_db).length ≠ 0 →
      8 < median (maskList cfg.mask inp.power_db) - median (maskList cfg.mask base) →
      jamTick cfg st inp =
        ({ st with
            jam_baseline_db := some inp.power_db,
            jam_ignore_until := inp.now + 8 / 10 }, none)) ∧
    (∀ (cfg : JamCfg) (st : JamState) (inp : JamTickInput),
      inp.now < st.jam_ignore_until → jamTick cfg st inp = (st, none)) := by
  constructor
  · intro cfg st inp base0 base hlen hig hb hready hbase hmask hmed
    subst hbase
    have hfr : jamFront cfg st inp = .halt
        { st with
          jam_baseline_db := some inp.power_db,
          jam_ignore_until := inp.now + 8 / 10 } := by
      unfold jamFront
      rw [if_neg (by simp [hlen]), if_neg (not_lt.mpr hig), hb]
      dsimp only
      rw [if_neg (not_lt.mpr hready), if_neg hmask, if_pos hmed]
    unfold jamTick
    rw [hfr]
  · intro cfg st inp h
    unfold jamTick jamFront
    by_cases hl : inp.power_db.length ≠ cfg.fft_size
    · rw [if_pos hl]
    · rw [if_neg hl, if_pos h]

/-- A concrete detector configuration used by the closed instances: 4 FFT
bins of which the middle two are masked in, EMA factor 0, threshold 1 dB,
and the source's fixed port rotation order. -/
def cfgW : JamCfg where
  fft_size := 4
  mask := [false, true, true, false]
  jam_alpha := 0
  jam_thresh_db := 1
  jam_occ_min := 1 / 2
  jam_sfm_min_db := -5
  sfm_offset := 8 / 10
  jam_occ_multipeak := 15 / 100
  jam_span_min := 8 / 1000
  jam_band_db := 3 / 2
  jam_median_db := 2
  jam_hold_s := 2 / 5
  jam_cooldown_s := 4
  occ_scale := 1
  ports := ["A4", "A3", "A2", "A1", "B4", "B3", "B2", "B1"]

/-- A detector state armed since t = 0 with a zero baseline. -/
def stW : JamState where
  jam_baseline_db := some [0, 0, 0, 0]
  jam_ready_at := 0
  jam_ignore_until := 0
  baseline_freeze_until := 0
  sfm_ref := some 0
  occ_req_ema := some (2 / 10)
  band_state := false
  med_state := false
  score_ema := some 100
  jam_started := some 0
  jam_last_switch := 0
  jam_cooldown_until := 0
  last_score_at_switch := 0
  current_port_index := 0
  antenna_select := "A4"

/-- A tick at t = 10 with a 5 dB masked spectrum, triggering via the median
branch. -/
def inpW : JamTickInput where
  now := 10
  power_db := [5, 5, 5, 5]
  sfm_db := 0
  band_lift := 100
  decay := 1

/-- Closed instance of C2: the tick `inpW` fires (rotating to A3 at t = 10),
respects the pre-tick cooldown deadline, and re-arms it to `10 + 4`. -/
theorem C2_cooldown_spacing_witness :
    PortSwitchEvent.timestamp ⟨"A3", 10⟩ = inpW.now ∧
    stW.jam_cooldown_until ≤ PortSwitchEvent.timestamp ⟨"A3", 10⟩ ∧
    (jamTick cfgW stW inpW).1.jam_cooldown_until =
      PortSwitchEvent.timestamp ⟨"A3", 10⟩ + cfgW.jam_cooldown_s :=
  C2_cooldown_spacing.2 cfgW stW inpW ⟨"A3", 10⟩ (by
    norm_num [jamTick, jamFront, jamAnalysis, jamGate, cfgW, stW, inpW, maskList,
      median, sortQ, insertSorted, countTrue, longestRun, longestRunAux,
      occReqRelieved, occReqBase, occReqEmaStep, occReqEff])

/-- Closed instance of C3 (fire branch of the gate) at `stW`, t = 10. -/
theorem C3_hold_and_fire_witness :
    jamGate cfgW stW 10 [5, 5, 5, 5] 0 true true 7 =
      ({ stW with
          jam_started := none,
          current_port_index := cfgW.ports.indexOf
            (cfgW.ports.getD ((stW.current_port_index + 1) % cfgW.ports.length) ""),
          antenna_select :=
            cfgW.ports.getD ((stW.current_port_index + 1) % cfgW.ports.length) "",
          jam_last_switch := 10,
          jam_cooldown_until := 10 + cfgW.jam_cooldown_s,
          jam_ready_at := 10 + 8 / 10,
          baseline_freeze_until := 10 + 6 / 10,
          jam_baseline_db := some [5, 5, 5, 5],
          sfm_ref := some 0,
          last_score_at_switch := 7 },
       some ⟨cfgW.ports.getD ((stW.current_port_index + 1) % cfgW.ports.length) "",
             10⟩) :=
  C3_hold_and_fire.2.2.2.2 cfgW stW 10 [5, 5, 5, 5] 0 true true 7 rfl rfl
    (by norm_num [cfgW, stW]) (by norm_num [stW]) (by norm_num [stW])

/-- Detector state for the C8 instance: frozen baseline of zeros. -/
def st8W : JamState where
  jam_baseline_db := some [0, 0, 0, 0]
  jam_ready_at := 0
  jam_ignore_until := 0
  baseline_freeze_until := 1000
  sfm_ref := some 0
  occ_req_ema := none
  band_state := false
  med_state := false
  score_ema := none
  jam_started := none
  jam_last_switch := 0
  jam_cooldown_until := 0
  last_score_at_switch := 0
  current_port_index := 0
  antenna_select := "A4"

/-- Closed instance of C8: a 20 dB masked median step at t = 10 snaps the
baseline and suppresses detection until t = 10.8, with no event. -/
theorem C8_median_step_guard_witness :
    jamTick cfgW st8W ⟨10, [20, 20, 20, 20], 0, 0, 1⟩ =
      ({ st8W with
          jam_baseline_db := some [20, 20, 20, 20],
          jam_ignore_until := 10 + 8 / 10 }, none) :=
  C8_median_step_guard.1 cfgW st8W ⟨10, [20, 20, 20, 20], 0, 0, 1⟩ [0, 0, 0, 0]
    [0, 0, 0, 0] rfl (by norm_num [st8W]) rfl (by norm_num [st8W])
    (by norm_num [st8W, cfgW]) (by norm_num [cfgW, maskList])
    (by norm_num [cfgW, maskList, median, sortQ, insertSorted])

end SDRSwitch
